import Mathlib

/-!
Shallow embedding of `aftltool.py`, the AFTL (Android Firmware Transparency
Log) support tool for Android Verified Boot images: RFC 6962 Merkle-tree
primitives, the AFTL container codecs (`TrillianLogRootDescriptor`,
`FirmwareInfoLeaf`, `AftlIcpEntry`, `AftlImageHeader`, `AftlImage`), the
verifier, and the `make_icp_from_vbmeta` orchestrator, together with theorems
settling the specification claims.

External collaborators are modelled as explicit function parameters:

* `sha` stands for `hashlib.sha256(...).digest()`;
* `chk` stands for `check_signature`, which shells out to `openssl`;
* `fwOk` stands for the JSON machinery of `FirmwareInfoLeaf.__init__` /
  `is_valid` on a non-empty blob (`json.loads`, the `Value.FwInfo.info.info`
  path and the protobuf key-subset check);
* `fwH` stands for `FirmwareInfoLeaf.vbmeta_hash` (JSON lookup plus Base64
  decode) on a non-empty blob;
* `request` stands for `Aftl.request_inclusion_proof` (gRPC transport plus
  manufacturer-key signing);
* `avbM` / `avbm` stand for `avbtool.AVB_VERSION_MAJOR` / `AVB_VERSION_MINOR`.

Everything else is translated directly from the source.  Exceptions are made
explicit: a function that can raise returns `Except AftlError _`.
-/

namespace Aftl

/-- A byte of a Python byte string. -/
abbrev Byte := Fin 256

/-- A Python byte string. -/
abbrev Bytes := List Byte

/-- The exceptions the modelled code can raise.  Each distinct `AftlError`
message string in the source is a distinct constructor.  `structError` stands
for Python `struct.error` (a buffer of the wrong size handed to
`struct.unpack`, which the source does not catch), `unicodeError` for
`UnicodeDecodeError` from `log_url.decode('ascii')`, and `typeError` for
`TypeError` (a `str` written to a binary file object). -/
inductive AftlError where
  | structError
  | unicodeError
  | typeError
  | invalidLeafIndex (leafIndex : Int)
  | invalidTreeSize (treeSize : Int)
  | leafIndexGeTreeSize (leafIndex treeSize : Int)
  | noProof
  | noLeafHash
  | invalidDescriptor
  | invalidFwLeaf
  | invalidEntry
  | invalidImageHeader
  | icpEntryInvalid (i : Nat)
  | invalidImage
  deriving Repr, DecidableEq

/-- Big-endian value of a byte string, as `struct.unpack` reads an unsigned
field. -/
def beBytesToNat (bs : Bytes) : Nat :=
  bs.foldl (fun a b => a * 256 + b.val) 0

/-- Big-endian encoding of `n` on `w` bytes, as `struct.pack` writes an
unsigned field.  The source only packs in-range values (where this agrees
with `struct.pack`); out-of-range values wrap instead of raising. -/
def natToBE : Nat → Nat → Bytes
  | 0, _ => []
  | w + 1, n => natToBE w (n / 256) ++ [⟨n % 256, Nat.mod_lt _ (by decide)⟩]

/-! ## Merkle primitives (`rfc6962_hash_leaf` .. `root_from_icp`) -/

/-- RFC 6962 leaf hash: SHA-256 over a `0x00` byte followed by the leaf. -/
def rfc6962_hash_leaf (sha : Bytes → Bytes) (leaf : Bytes) : Bytes :=
  sha (0 :: leaf)

/-- RFC 6962 inner-node hash: SHA-256 over a `0x01` byte followed by the
left and right child hashes. -/
def rfc6962_hash_children (sha : Bytes → Bytes) (l r : Bytes) : Bytes :=
  sha (1 :: (l ++ r))

/-- The `for i, h in enumerate(proof)` loop of `chain_inner`, with `i` the
current enumeration index. -/
def chain_inner_from (sha : Bytes → Bytes) (leafIndex : Nat) :
    Bytes → List Bytes → Nat → Bytes
  | seed, [], _ => seed
  | seed, h :: rest, i =>
    chain_inner_from sha leafIndex
      (if (leafIndex >>> i) &&& 1 = 0 then rfc6962_hash_children sha seed h
       else rfc6962_hash_children sha h seed)
      rest (i + 1)

/-- `chain_inner(seed, proof, leaf_index)`. -/
def chain_inner (sha : Bytes → Bytes) (seed : Bytes) (proof : List Bytes)
    (leafIndex : Nat) : Bytes :=
  chain_inner_from sha leafIndex seed proof 0

/-- `chain_border_right(seed, proof)`. -/
def chain_border_right (sha : Bytes → Bytes) (seed : Bytes)
    (proof : List Bytes) : Bytes :=
  proof.foldl (fun s h => rfc6962_hash_children sha h s) seed

/-- Python `int.bit_length()` for a non-negative argument.  The fuel
argument only bounds the recursion depth; `n` itself is always enough fuel
since a number's bit length never exceeds the number (for `n ≥ 1`). -/
def bitLengthAux : Nat → Nat → Nat
  | 0, _ => 0
  | fuel + 1, n => if n = 0 then 0 else bitLengthAux fuel (n / 2) + 1

/-- Python `int.bit_length()` for a non-negative argument. -/
def bit_length (n : Nat) : Nat := bitLengthAux n n

/-- `root_from_icp(leaf_index, tree_size, proof, leaf_hash)`.  The argument
checks raise in source order; `proof is None` / `leaf_hash is None` are
modelled by `Option`. -/
def root_from_icp (sha : Bytes → Bytes) (leaf_index tree_size : Int)
    (proof : Option (List Bytes)) (leaf_hash : Option Bytes) :
    Except AftlError Bytes :=
  if leaf_index < 0 then .error (.invalidLeafIndex leaf_index)
  else if tree_size < 0 then .error (.invalidTreeSize tree_size)
  else if leaf_index ≥ tree_size then
    .error (.leafIndexGeTreeSize leaf_index tree_size)
  else
    match proof with
    | none => .error .noProof
    | some p =>
      match leaf_hash with
      | none => .error .noLeafHash
      | some lh =>
        let inner := bit_length (leaf_index.toNat ^^^ (tree_size - 1).toNat)
        .ok (chain_border_right sha
          (chain_inner sha lh (p.take inner) leaf_index.toNat) (p.drop inner))

/-- Claim C1: for any SHA-256 oracle and any four leaves `L0..L3`,
`root_from_icp` with `leaf_index = 2`, `tree_size = 4`, audit path
`[hash_leaf L3, hash_children (hash_leaf L0) (hash_leaf L1)]` and leaf hash
`hash_leaf L2` returns the standard RFC 6962 root
`hash_children (hash_children (hash_leaf L0) (hash_leaf L1))
(hash_children (hash_leaf L2) (hash_leaf L3))`. -/
theorem root_from_icp_index2_size4 (sha : Bytes → Bytes) (L0 L1 L2 L3 : Bytes) :
    root_from_icp sha 2 4
      (some [rfc6962_hash_leaf sha L3,
             rfc6962_hash_children sha (rfc6962_hash_leaf sha L0)
               (rfc6962_hash_leaf sha L1)])
      (some (rfc6962_hash_leaf sha L2))
    = .ok (rfc6962_hash_children sha
        (rfc6962_hash_children sha (rfc6962_hash_leaf sha L0)
          (rfc6962_hash_leaf sha L1))
        (rfc6962_hash_children sha (rfc6962_hash_leaf sha L2)
          (rfc6962_hash_leaf sha L3))) := rfl

/-- Claim C5 (amended): `root_from_icp` raises a distinct validation error
for each of its five argument checks, in source order — `leaf_index < 0`,
`tree_size < 0` (the code checks `tree_size < 0`, not `tree_size ≤ 0`),
`leaf_index ≥ tree_size`, missing audit path, missing leaf hash.  Because
the tree-size check only rejects negative values, `tree_size = 0` with any
`leaf_index ≥ 0` raises the `leaf_index ≥ tree_size` error, not a
tree-size error. -/
theorem root_from_icp_distinct_errors :
    (∀ (sha : Bytes → Bytes) li ts proof lh, li < 0 →
        root_from_icp sha li ts proof lh = .error (.invalidLeafIndex li)) ∧
    (∀ (sha : Bytes → Bytes) li ts proof lh, 0 ≤ li → ts < 0 →
        root_from_icp sha li ts proof lh = .error (.invalidTreeSize ts)) ∧
    (∀ (sha : Bytes → Bytes) li ts proof lh, 0 ≤ li → 0 ≤ ts → ts ≤ li →
        root_from_icp sha li ts proof lh
          = .error (.leafIndexGeTreeSize li ts)) ∧
    (∀ (sha : Bytes → Bytes) li ts lh, 0 ≤ li → li < ts →
        root_from_icp sha li ts none lh = .error .noProof) ∧
    (∀ (sha : Bytes → Bytes) li ts proof, 0 ≤ li → li < ts →
        root_from_icp sha li ts (some proof) none = .error .noLeafHash) ∧
    (∀ (sha : Bytes → Bytes) li proof lh, 0 ≤ li →
        root_from_icp sha li 0 proof lh
          = .error (.leafIndexGeTreeSize li 0)) := by
  refine ⟨?_, ?_, ?_, ?_, ?_, ?_⟩
  · intro sha li ts proof lh h
    simp only [root_from_icp]
    rw [if_pos h]
  · intro sha li ts proof lh h0 h1
    simp only [root_from_icp]
    rw [if_neg (by omega), if_pos h1]
  · intro sha li ts proof lh h0 h1 h2
    simp only [root_from_icp]
    rw [if_neg (by omega), if_neg (by omega), if_pos h2]
  · intro sha li ts lh h0 h1
    simp only [root_from_icp]
    rw [if_neg (by omega), if_neg (by omega), if_neg (by omega)]
  · intro sha li ts proof h0 h1
    simp only [root_from_icp]
    rw [if_neg (by omega), if_neg (by omega), if_neg (by omega)]
  · intro sha li proof lh h0
    simp only [root_from_icp]
    rw [if_neg (by omega), if_neg (by omega), if_pos (by omega)]

/-- Witness for the amended claim C5: each of its six cases applied at a
concrete input. -/
theorem root_from_icp_distinct_errors_witness :
    root_from_icp (fun _ => []) (-1) 4 none none
      = .error (.invalidLeafIndex (-1)) ∧
    root_from_icp (fun _ => []) 0 (-2) none none
      = .error (.invalidTreeSize (-2)) ∧
    root_from_icp (fun _ => []) 5 4 none none
      = .error (.leafIndexGeTreeSize 5 4) ∧
    root_from_icp (fun _ => []) 0 4 none none = .error .noProof ∧
    root_from_icp (fun _ => []) 0 4 (some []) none = .error .noLeafHash ∧
    root_from_icp (fun _ => []) 3 0 (some []) (some [])
      = .error (.leafIndexGeTreeSize 3 0) :=
  ⟨root_from_icp_distinct_errors.1 _ _ _ _ _ (by decide),
   root_from_icp_distinct_errors.2.1 _ _ _ _ _ (by decide) (by decide),
   root_from_icp_distinct_errors.2.2.1 _ _ _ _ _ (by decide) (by decide)
     (by decide),
   root_from_icp_distinct_errors.2.2.2.1 _ _ _ _ (by decide) (by decide),
   root_from_icp_distinct_errors.2.2.2.2.1 _ _ _ _ (by decide) (by decide),
   root_from_icp_distinct_errors.2.2.2.2.2 _ _ _ _ (by decide)⟩

/-- Counterexample to claim C5 as stated: at `tree_size = 0` (with
`leaf_index = 0`) `root_from_icp` raises the `leaf_index ≥ tree_size` error,
not an error specific to a `tree_size > 0` precondition. -/
theorem root_from_icp_tree_size_zero_cex :
    root_from_icp (fun _ => []) 0 0 (some []) (some [])
      = .error (.leafIndexGeTreeSize 0 0) ∧
    root_from_icp (fun _ => []) 0 0 (some []) (some [])
      ≠ .error (.invalidTreeSize 0) := by
  constructor
  · rfl
  · intro h
    rw [(rfl : root_from_icp (fun _ => []) 0 0 (some []) (some [])
          = .error (.leafIndexGeTreeSize 0 0))] at h
    injection h with h'
    exact AftlError.noConfusion h'

/-! ## `TrillianLogRootDescriptor` -/

structure TrillianLogRootDescriptor where
  version : Nat
  tree_size : Nat
  root_hash_size : Nat
  root_hash : Bytes
  timestamp : Nat
  revision : Nat
  metadata_size : Nat
  metadata : Bytes
  deriving Repr, DecidableEq

/-- `TrillianLogRootDescriptor.is_valid`.  The source's non-negativity
checks on `tree_size`, `timestamp` and `revision` are vacuous here: those
fields are only ever populated from unsigned formats and are `Nat`s. -/
def TrillianLogRootDescriptor.is_valid (d : TrillianLogRootDescriptor) : Bool :=
  decide (d.version = 1 ∧ d.root_hash_size ≤ 128 ∧
    d.root_hash.length = d.root_hash_size ∧ d.metadata_size ≤ 65535 ∧
    d.metadata.length = d.metadata_size)

/-- `TrillianLogRootDescriptor.get_expected_size`: 11 header bytes, the
root hash, 18 more fixed bytes, the metadata.  Uses the recorded sizes, as
the source does. -/
def TrillianLogRootDescriptor.get_expected_size
    (d : TrillianLogRootDescriptor) : Nat :=
  11 + d.root_hash_size + 18 + d.metadata_size

/-- The packing inside `TrillianLogRootDescriptor.encode`.  `struct.pack`
pads or truncates `root_hash` and `metadata` to their recorded sizes, but
`encode` is only reached on descriptors that pass `is_valid`, where the
recorded sizes equal the actual lengths. -/
def TrillianLogRootDescriptor.encode (d : TrillianLogRootDescriptor) : Bytes :=
  natToBE 2 d.version ++ natToBE 8 d.tree_size ++ natToBE 1 d.root_hash_size ++
    d.root_hash ++ natToBE 8 d.timestamp ++ natToBE 8 d.revision ++
    natToBE 2 d.metadata_size ++ d.metadata

/-- `TrillianLogRootDescriptor.encode` with its `is_valid` guard (the source
raises `AftlError` on an invalid descriptor). -/
def TrillianLogRootDescriptor.encodeE (d : TrillianLogRootDescriptor) :
    Except AftlError Bytes :=
  if d.is_valid then .ok d.encode else .error .invalidDescriptor

/-- `TrillianLogRootDescriptor.__init__` on a non-`None` byte string: parse
the first fixed part, the root hash, the second fixed part, the metadata;
trailing bytes are ignored.  A slice too short for `struct.unpack` raises
`struct.error`; an inconsistent result fails `is_valid` and raises
`AftlError`. -/
def TrillianLogRootDescriptor.parse (data : Bytes) :
    Except AftlError TrillianLogRootDescriptor :=
  if data.length < 11 then .error .structError
  else
    let version := beBytesToNat (data.take 2)
    let tree_size := beBytesToNat ((data.drop 2).take 8)
    let root_hash_size := beBytesToNat ((data.drop 10).take 1)
    let rest := data.drop 11
    let root_hash := rest.take root_hash_size
    let rest2 := rest.drop root_hash_size
    if rest2.length < 18 then .error .structError
    else
      let timestamp := beBytesToNat (rest2.take 8)
      let revision := beBytesToNat ((rest2.drop 8).take 8)
      let metadata_size := beBytesToNat ((rest2.drop 16).take 2)
      let metadata := (rest2.drop 18).take metadata_size
      let d : TrillianLogRootDescriptor :=
        ⟨version, tree_size, root_hash_size, root_hash, timestamp, revision,
         metadata_size, metadata⟩
      if d.is_valid then .ok d else .error .invalidDescriptor

/-! ## `FirmwareInfoLeaf` -/

/-- `FirmwareInfoLeaf` stores the original JSON bytes verbatim; the parsed
dictionary view is reached through the `fwOk` / `fwH` parameters. -/
structure FirmwareInfoLeaf where
  bytes : Bytes
  deriving Repr, DecidableEq

/-- `FirmwareInfoLeaf.__init__`: an empty (falsy) blob yields the default
empty leaf; a non-empty blob is kept verbatim when the JSON machinery
(`fwOk`) accepts it and raises `AftlError` otherwise. -/
def FirmwareInfoLeaf.parse (fwOk : Bytes → Bool) (data : Bytes) :
    Except AftlError FirmwareInfoLeaf :=
  if data = [] then .ok ⟨[]⟩
  else if fwOk data then .ok ⟨data⟩
  else .error .invalidFwLeaf

/-- `FirmwareInfoLeaf.encode` returns the stored original bytes. -/
def FirmwareInfoLeaf.encode (l : FirmwareInfoLeaf) : Bytes := l.bytes

/-- `FirmwareInfoLeaf.get_expected_size`. -/
def FirmwareInfoLeaf.get_expected_size (l : FirmwareInfoLeaf) : Nat :=
  l.bytes.length

/-- `FirmwareInfoLeaf.vbmeta_hash`: the empty leaf has an empty dictionary,
so the lookup yields `None`; otherwise the JSON lookup plus Base64 decode is
the `fwH` parameter. -/
def FirmwareInfoLeaf.vbmeta_hash (fwH : Bytes → Option Bytes)
    (l : FirmwareInfoLeaf) : Option Bytes :=
  if l.bytes = [] then none else fwH l.bytes

/-! ## `AftlIcpEntry` -/

/-- An inclusion-proof entry.  `log_url` holds the ASCII bytes of the URL
(the source stores the decoded `str`; its length equals the byte length).
The `*_size` header fields are not stored: after `__init__` every size
property is recomputed from the live attribute, as in the source. -/
structure AftlIcpEntry where
  leaf_index : Int
  log_url : Bytes
  log_root_descriptor : TrillianLogRootDescriptor
  fw_info_leaf : FirmwareInfoLeaf
  log_root_signature : Bytes
  proofs : List Bytes
  deriving Repr, DecidableEq

/-- `AftlIcpEntry.inc_proof_size` (the `proofs` attribute is set, so the
sizes of the live proofs are summed). -/
def AftlIcpEntry.inc_proof_size (e : AftlIcpEntry) : Nat :=
  (e.proofs.map List.length).sum

/-- `AftlIcpEntry.get_expected_size` after `__init__`: 27 header bytes plus
the live payload sizes. -/
def AftlIcpEntry.get_expected_size (e : AftlIcpEntry) : Nat :=
  27 + e.log_url.length + e.log_root_descriptor.get_expected_size +
    e.fw_info_leaf.get_expected_size + e.log_root_signature.length +
    e.inc_proof_size

/-- `AftlIcpEntry.is_valid`: non-negative leaf index and a valid descriptor.
The object-truthiness and `isinstance` checks of the source are vacuous
here. -/
def AftlIcpEntry.is_valid (e : AftlIcpEntry) : Bool :=
  decide (0 ≤ e.leaf_index) && e.log_root_descriptor.is_valid

/-- The proof-splitting loop of `AftlIcpEntry.__init__`: `n` slices of
`hashSize` bytes taken from consecutive offsets. -/
def splitProofs (b : Bytes) (hashSize : Nat) : Nat → List Bytes
  | 0 => []
  | n + 1 => b.take hashSize :: splitProofs (b.drop hashSize) hashSize n

/-- `AftlIcpEntry.__init__` on a byte string: unpack the 27-byte header,
unpack the five payloads at their declared sizes (raising `struct.error` if
the data is too short, trailing bytes being allowed), decode the URL as
ASCII, parse the descriptor and the firmware-info leaf, split the proof
bytes into `proof_hash_count` slices of `inc_proof_size // proof_hash_count`
bytes, and check `is_valid`.  There is no divisibility check on
`inc_proof_size`. -/
def AftlIcpEntry.parse (fwOk : Bytes → Bool) (data : Bytes) :
    Except AftlError AftlIcpEntry :=
  if data.length < 27 then .error .structError
  else
    let log_url_size := beBytesToNat (data.take 4)
    let leaf_index := beBytesToNat ((data.drop 4).take 8)
    let log_root_descriptor_size := beBytesToNat ((data.drop 12).take 4)
    let fw_info_leaf_size := beBytesToNat ((data.drop 16).take 4)
    let log_root_sig_size := beBytesToNat ((data.drop 20).take 2)
    let proof_hash_count := beBytesToNat ((data.drop 22).take 1)
    let inc_proof_size := beBytesToNat ((data.drop 23).take 4)
    if data.length < 27 + log_url_size + log_root_descriptor_size +
        fw_info_leaf_size + log_root_sig_size + inc_proof_size then
      .error .structError
    else
      let rest0 := data.drop 27
      let urlBytes := rest0.take log_url_size
      if ¬ urlBytes.all (fun b => decide (b.val < 128)) then
        .error .unicodeError
      else
        let rest1 := rest0.drop log_url_size
        match TrillianLogRootDescriptor.parse
            (rest1.take log_root_descriptor_size) with
        | .error err => .error err
        | .ok lrd =>
          let rest2 := rest1.drop log_root_descriptor_size
          match FirmwareInfoLeaf.parse fwOk (rest2.take fw_info_leaf_size) with
          | .error err => .error err
          | .ok fw =>
            let rest3 := rest2.drop fw_info_leaf_size
            let sig := rest3.take log_root_sig_size
            let proofBytes := (rest3.drop log_root_sig_size).take inc_proof_size
            let proofs :=
              if proof_hash_count > 0 then
                splitProofs proofBytes (inc_proof_size / proof_hash_count)
                  proof_hash_count
              else []
            let e : AftlIcpEntry :=
              ⟨(leaf_index : Int), urlBytes, lrd, fw, sig, proofs⟩
            if e.is_valid then .ok e else .error .invalidEntry

/-- The packing inside `AftlIcpEntry.encode`: header fields recomputed from
the live attributes, then the payloads in declared order. -/
def AftlIcpEntry.encode (e : AftlIcpEntry) : Bytes :=
  natToBE 4 e.log_url.length ++ natToBE 8 e.leaf_index.toNat ++
    natToBE 4 e.log_root_descriptor.get_expected_size ++
    natToBE 4 e.fw_info_leaf.get_expected_size ++
    natToBE 2 e.log_root_signature.length ++ natToBE 1 e.proofs.length ++
    natToBE 4 e.inc_proof_size ++ e.log_url ++ e.log_root_descriptor.encode ++
    e.fw_info_leaf.encode ++ e.log_root_signature ++ e.proofs.flatten

/-! ## `AftlImageHeader` and `AftlImage` -/

structure AftlImageHeader where
  magic : Bytes
  required_icp_version_major : Nat
  required_icp_version_minor : Nat
  aftl_image_size : Nat
  icp_count : Nat
  deriving Repr, DecidableEq

/-- The four magic bytes `b'AFTL'`. -/
def AftlImageHeader.MAGIC : Bytes := [65, 70, 84, 76]

/-- `AftlImageHeader.is_valid` against the supported AVB version
constants. -/
def AftlImageHeader.is_valid (avbM avbm : Nat) (h : AftlImageHeader) : Bool :=
  decide (h.magic = AftlImageHeader.MAGIC ∧
    h.required_icp_version_major ≤ avbM ∧
    h.required_icp_version_minor ≤ avbm ∧
    18 ≤ h.aftl_image_size ∧ h.icp_count ≤ 65535)

/-- The packing inside `AftlImageHeader.encode` (only reached on valid
headers). -/
def AftlImageHeader.encode (h : AftlImageHeader) : Bytes :=
  h.magic ++ natToBE 4 h.required_icp_version_major ++
    natToBE 4 h.required_icp_version_minor ++ natToBE 4 h.aftl_image_size ++
    natToBE 2 h.icp_count

/-- `AftlImageHeader.__init__` on a non-`None` byte string: `struct.unpack`
needs exactly 18 bytes, then `is_valid` must hold. -/
def AftlImageHeader.parse (avbM avbm : Nat) (data : Bytes) :
    Except AftlError AftlImageHeader :=
  if data.length < 18 then .error .structError
  else
    let h : AftlImageHeader :=
      ⟨data.take 4, beBytesToNat ((data.drop 4).take 4),
       beBytesToNat ((data.drop 8).take 4),
       beBytesToNat ((data.drop 12).take 4),
       beBytesToNat ((data.drop 16).take 2)⟩
    if h.is_valid avbM avbm then .ok h else .error .invalidImageHeader

structure AftlImage where
  image_header : AftlImageHeader
  icp_entries : List AftlIcpEntry
  deriving Repr, DecidableEq

/-- `AftlImage.add_icp_entry`: append the entry, bump the count, grow the
recorded total size by the entry's size. -/
def AftlImage.add_icp_entry (img : AftlImage) (e : AftlIcpEntry) : AftlImage :=
  { image_header :=
      { img.image_header with
        icp_count := img.image_header.icp_count + 1,
        aftl_image_size :=
          img.image_header.aftl_image_size + e.get_expected_size },
    icp_entries := img.icp_entries ++ [e] }

/-- `AftlImage.is_valid`. -/
def AftlImage.is_valid (avbM avbm : Nat) (img : AftlImage) : Bool :=
  img.image_header.is_valid avbM avbm &&
    decide (img.image_header.icp_count = img.icp_entries.length) &&
    img.icp_entries.all AftlIcpEntry.is_valid

/-- The `AftlImage()` default construction: default header (magic, the
supported AVB version, size 18, count 0) and no entries. -/
def emptyAftlImage (avbM avbm : Nat) : AftlImage :=
  ⟨⟨AftlImageHeader.MAGIC, avbM, avbm, 18, 0⟩, []⟩

/-- The entry-deserialization loop of `AftlImage.__init__`: `n` entries left
to parse starting at `offset`, `i` the current entry index (used in the
error), the image accumulated through `add_icp_entry`. -/
def parseIcpEntries (fwOk : Bytes → Bool) (data : Bytes) :
    Nat → Nat → Nat → AftlImage → Except AftlError AftlImage
  | _, _, 0, img => .ok img
  | offset, i, n + 1, img =>
    match AftlIcpEntry.parse fwOk (data.drop offset) with
    | .error err => .error err
    | .ok entry =>
      if entry.is_valid then
        parseIcpEntries fwOk data (offset + entry.get_expected_size) (i + 1) n
          (img.add_icp_entry entry)
      else .error (.icpEntryInvalid i)

/-- `AftlImage.__init__` on a byte string.  A falsy (empty) input takes the
default-construction branch.  Otherwise: parse the 18-byte header, then
re-add each parsed entry through `add_icp_entry`.  NOTE: before the loop
the source resets `icp_count` to 0 but leaves `aftl_image_size` at its
parsed value, so `add_icp_entry` grows the recorded size past the value
stored in the input. -/
def AftlImage.parse (avbM avbm : Nat) (fwOk : Bytes → Bool) (data : Bytes) :
    Except AftlError AftlImage :=
  if data = [] then .ok (emptyAftlImage avbM avbm)
  else
    match AftlImageHeader.parse avbM avbm (data.take 18) with
    | .error err => .error err
    | .ok h =>
      match parseIcpEntries fwOk data 18 0 h.icp_count
          ⟨{ h with icp_count := 0 }, []⟩ with
      | .error err => .error err
      | .ok img =>
        if img.is_valid avbM avbm then .ok img else .error .invalidImage

/-- The concatenation inside `AftlImage.encode`. -/
def AftlImage.rawEncode (img : AftlImage) : Bytes :=
  img.image_header.encode ++ (img.icp_entries.map AftlIcpEntry.encode).flatten

/-- `AftlImage.encode` with its `is_valid` guard. -/
def AftlImage.encodeE (avbM avbm : Nat) (img : AftlImage) :
    Except AftlError Bytes :=
  if img.is_valid avbM avbm then .ok img.rawEncode else .error .invalidImage

/-! ## Claim C9: header invariants under `add_icp_entry` -/

/-- Folding `add_icp_entry` adds the entry count and the entry sizes to the
starting header fields. -/
theorem foldl_add_icp_entry_header (img : AftlImage)
    (es : List AftlIcpEntry) :
    (es.foldl AftlImage.add_icp_entry img).image_header.icp_count
        = img.image_header.icp_count + es.length ∧
    (es.foldl AftlImage.add_icp_entry img).image_header.aftl_image_size
        = img.image_header.aftl_image_size
            + (es.map AftlIcpEntry.get_expected_size).sum := by
  induction es generalizing img with
  | nil => simp
  | cons e es ih =>
    have h := ih (img.add_icp_entry e)
    simp only [List.foldl_cons, List.length_cons, List.map_cons,
      List.sum_cons] at h ⊢
    constructor
    · rw [h.1]; simp [AftlImage.add_icp_entry]; omega
    · rw [h.2]; simp [AftlImage.add_icp_entry]; omega

/-- Claim C9: after any sequence of `add_icp_entry` calls on an
empty-constructed `AftlImage`, the header's `icp_count` equals the number of
entries and `aftl_image_size` equals 18 plus the sum of the entry sizes; the
empty construction itself has count 0 and size 18. -/
theorem add_icp_entry_header_invariants (avbM avbm : Nat)
    (es : List AftlIcpEntry) :
    (es.foldl AftlImage.add_icp_entry
        (emptyAftlImage avbM avbm)).image_header.icp_count = es.length ∧
    (es.foldl AftlImage.add_icp_entry
        (emptyAftlImage avbM avbm)).image_header.aftl_image_size
      = 18 + (es.map AftlIcpEntry.get_expected_size).sum ∧
    (emptyAftlImage avbM avbm).image_header.icp_count = 0 ∧
    (emptyAftlImage avbM avbm).image_header.aftl_image_size = 18 := by
  have h := foldl_add_icp_entry_header (emptyAftlImage avbM avbm) es
  refine ⟨?_, ?_, rfl, rfl⟩
  · rw [h.1]; simp [emptyAftlImage]
  · rw [h.2]; simp [emptyAftlImage]

/-! ## Claim C3: round trips -/

/-- A well-formed 74-byte `AftlImage`: an 18-byte header (magic `AFTL`,
versions 0/0, total size 74, one entry) followed by one 56-byte entry (empty
URL, leaf index 0, a 29-byte minimal descriptor, empty leaf, empty
signature, no proofs). -/
def c3ImageBytes : Bytes :=
  [65, 70, 84, 76, 0, 0, 0, 0, 0, 0, 0, 0, 0, 0, 0, 74, 0, 1,
   0, 0, 0, 0, 0, 0, 0, 0, 0, 0, 0, 0, 0, 0, 0, 29, 0, 0, 0, 0,
   0, 0, 0, 0, 0, 0, 0,
   0, 1, 0, 0, 0, 0, 0, 0, 0, 0, 0, 0, 0, 0, 0, 0, 0, 0, 0,
   0, 0, 0, 0, 0, 0, 0, 0, 0, 0]

/-- The image `AftlImage.parse` produces from `c3ImageBytes`: note the
recorded `aftl_image_size` has grown from the 74 stored in the input to
74 + 56 = 130, because the parse loop re-adds the entry through
`add_icp_entry` without first resetting the size field. -/
def c3ParsedImage : AftlImage :=
  ⟨⟨[65, 70, 84, 76], 0, 0, 130, 1⟩,
   [⟨0, [], ⟨1, 0, 0, [], 0, 0, 0, []⟩, ⟨[]⟩, [], []⟩]⟩

/-- Claim C3 (code bug): parsing the well-formed 74-byte image
`c3ImageBytes` succeeds but leaves `aftl_image_size = 130` in the header, so
re-encoding produces the input with its size field changed (byte 15: 74 →
130) instead of the input itself — the decode/encode round trip fails on
any image with at least one entry. -/
theorem aftl_image_roundtrip_size_bug :
    AftlImage.parse 1 2 (fun _ => true) c3ImageBytes = .ok c3ParsedImage ∧
    c3ParsedImage.image_header.aftl_image_size = 130 ∧
    c3ImageBytes.length = 74 ∧
    AftlImage.encodeE 1 2 c3ParsedImage = .ok (c3ImageBytes.set 15 130) ∧
    c3ImageBytes.set 15 130 ≠ c3ImageBytes :=
  ⟨rfl, rfl, rfl, rfl, by decide⟩

/-! ## Claim C6: entry decoding with a non-multiple `inc_proof_size` -/

/-- A 61-byte `AftlIcpEntry` whose header declares `proof_hash_count = 2`
and `inc_proof_size = 5` (5 is not a multiple of the implied hash size
5 / 2 = 2): empty URL, leaf index 0, the 29-byte minimal descriptor, empty
leaf, empty signature, proof bytes `[1, 2, 3, 4, 5]`. -/
def c6EntryBytes : Bytes :=
  [0, 0, 0, 0, 0, 0, 0, 0, 0, 0, 0, 0, 0, 0, 0, 29, 0, 0, 0, 0,
   0, 0, 2, 0, 0, 0, 5,
   0, 1, 0, 0, 0, 0, 0, 0, 0, 0, 0, 0, 0, 0, 0, 0, 0, 0, 0,
   0, 0, 0, 0, 0, 0, 0, 0, 0, 0,
   1, 2, 3, 4, 5]

/-- The entry `AftlIcpEntry.parse` produces from `c6EntryBytes`: the proof
bytes are split into 2 slices of 5 // 2 = 2 bytes, dropping the leftover
byte. -/
def c6ParsedEntry : AftlIcpEntry :=
  ⟨0, [], ⟨1, 0, 0, [], 0, 0, 0, []⟩, ⟨[]⟩, [], [[1, 2], [3, 4]]⟩

/-- Counterexample to claim C6 as stated: decoding an entry whose
`inc_proof_size` (5) is not a multiple of the implied hash size (5 / 2 = 2)
succeeds instead of failing with a framing error. -/
theorem icp_entry_parse_nonmultiple_succeeds :
    AftlIcpEntry.parse (fun _ => true) c6EntryBytes = .ok c6ParsedEntry := rfl

/-- Claim C6 (amended): there is no divisibility check — decoding such an
input succeeds for any JSON oracle, splitting the proof bytes into
`proof_hash_count` slices of `inc_proof_size // proof_hash_count` bytes, so
the parsed proofs total 4 bytes while the header declared 5. -/
theorem icp_entry_parse_nonmultiple_floor (fwOk : Bytes → Bool) :
    AftlIcpEntry.parse fwOk c6EntryBytes = .ok c6ParsedEntry ∧
    c6ParsedEntry.proofs = [[1, 2], [3, 4]] ∧
    c6ParsedEntry.inc_proof_size = 4 := ⟨rfl, rfl, rfl⟩

/-! ## The verifier -/

/-- `AftlIcpEntry.verify_icp(transparency_log_pub_key)`.  A falsy (empty)
key path returns `False` at once.  Otherwise the leaf hash is chained to a
root with `root_from_icp` — whose argument-check exceptions propagate — and
on a root match the descriptor is re-encoded (which can itself raise) and
the detached signature is checked with `check_signature` (`chk`). -/
def AftlIcpEntry.verify_icp (sha : Bytes → Bytes)
    (chk : Bytes → Bytes → String → Bool) (e : AftlIcpEntry)
    (transparency_log_pub_key : String) : Except AftlError Bool :=
  if transparency_log_pub_key = "" then .ok false
  else
    match root_from_icp sha e.leaf_index
        (e.log_root_descriptor.tree_size : Int) (some e.proofs)
        (some (rfc6962_hash_leaf sha e.fw_info_leaf.encode)) with
    | .error err => .error err
    | .ok calc_root =>
      if calc_root = e.log_root_descriptor.root_hash then
        match e.log_root_descriptor.encodeE with
        | .error err => .error err
        | .ok lr => .ok (chk lr e.log_root_signature transparency_log_pub_key)
      else .ok false

/-- `AftlIcpEntry.verify_vbmeta_image(vbmeta_image, key)`: a falsy (empty
or `None`) vbmeta returns `False` before anything else; otherwise the entry
must pass `verify_icp` and its leaf's `vbmeta_hash` must equal the SHA-256
of the vbmeta bytes. -/
def AftlIcpEntry.verify_vbmeta_image (sha : Bytes → Bytes)
    (chk : Bytes → Bytes → String → Bool) (fwH : Bytes → Option Bytes)
    (e : AftlIcpEntry) (vbmeta_image : Bytes) (key : String) :
    Except AftlError Bool :=
  if vbmeta_image = [] then .ok false
  else
    let vbmeta_hash := sha vbmeta_image
    match e.verify_icp sha chk key with
    | .error err => .error err
    | .ok b =>
      .ok (b && decide (e.fw_info_leaf.vbmeta_hash fwH = some vbmeta_hash))

/-- The inner `for pub_key in transparency_log_pub_keys` loop of
`AftlImage.verify_vbmeta_image`: try each key until one verifies; an
exception from the entry check propagates. -/
def entryAnyKey (sha : Bytes → Bytes) (chk : Bytes → Bytes → String → Bool)
    (fwH : Bytes → Option Bytes) (e : AftlIcpEntry) (vbmeta : Bytes) :
    List String → Except AftlError Bool
  | [] => .ok false
  | k :: ks =>
    match e.verify_vbmeta_image sha chk fwH vbmeta k with
    | .error err => .error err
    | .ok true => .ok true
    | .ok false => entryAnyKey sha chk fwH e vbmeta ks

/-- The outer entry loop of `AftlImage.verify_vbmeta_image`, counting the
entries that verified against some key. -/
def countVerified (sha : Bytes → Bytes) (chk : Bytes → Bytes → String → Bool)
    (fwH : Bytes → Option Bytes) (vbmeta : Bytes) (keys : List String) :
    List AftlIcpEntry → Except AftlError Nat
  | [] => .ok 0
  | e :: es =>
    match entryAnyKey sha chk fwH e vbmeta keys with
    | .error err => .error err
    | .ok b =>
      match countVerified sha chk fwH vbmeta keys es with
      | .error err => .error err
      | .ok n => .ok (if b then n + 1 else n)

/-- `AftlImage.verify_vbmeta_image(vbmeta_image, transparency_log_pub_keys)`:
falsy key list or entry list returns `False`; otherwise every entry must
verify against at least one key. -/
def AftlImage.verify_vbmeta_image (sha : Bytes → Bytes)
    (chk : Bytes → Bytes → String → Bool) (fwH : Bytes → Option Bytes)
    (img : AftlImage) (vbmeta : Bytes) (keys : List String) :
    Except AftlError Bool :=
  if keys = [] ∨ img.icp_entries = [] then .ok false
  else
    match countVerified sha chk fwH vbmeta keys img.icp_entries with
    | .error err => .error err
    | .ok n => .ok (decide (n = img.icp_entries.length))

/-! ## Claim C10: falsy vbmeta and falsy key short-circuits -/

/-- Claim C10: for every entry — even one whose `verify_icp` would raise or
succeed — `AftlIcpEntry.verify_vbmeta_image` with an empty (falsy) vbmeta
returns `False` without evaluating the Merkle chain or the signature, and
`AftlIcpEntry.verify_icp` with an empty (falsy) key path returns `False`. -/
theorem verify_short_circuits_on_falsy_inputs (sha : Bytes → Bytes)
    (chk : Bytes → Bytes → String → Bool) (fwH : Bytes → Option Bytes)
    (e : AftlIcpEntry) (k : String) :
    AftlIcpEntry.verify_vbmeta_image sha chk fwH e [] k = .ok false ∧
    AftlIcpEntry.verify_icp sha chk e "" = .ok false := ⟨rfl, rfl⟩

/-! ## Claim C4: `verify_icp` raises instead of returning a boolean -/

/-- The default-constructed `TrillianLogRootDescriptor` (`data=None`):
version 1, everything else zero or empty. -/
def defaultTrillianLogRootDescriptor : TrillianLogRootDescriptor :=
  ⟨1, 0, 0, [], 0, 0, 0, []⟩

/-- The default-constructed `AftlIcpEntry` (`data=None`): leaf index 0,
empty URL, default descriptor (tree size 0), empty leaf, empty signature,
no proofs. -/
def defaultAftlIcpEntry : AftlIcpEntry :=
  ⟨0, [], defaultTrillianLogRootDescriptor, ⟨[]⟩, [], []⟩

/-- Claim C4 (code bug): `verify_icp` on an entry whose `leaf_index` is not
strictly below its descriptor's `tree_size` — here the default entry, with
`leaf_index = 0` and `tree_size = 0` — propagates the `AftlError` raised by
`root_from_icp` instead of returning `False`, for every SHA-256 and
signature-check oracle and any non-empty key path such as `"k"`. -/
theorem verify_icp_raises_on_default_entry (sha : Bytes → Bytes)
    (chk : Bytes → Bytes → String → Bool) :
    AftlIcpEntry.verify_icp sha chk defaultAftlIcpEntry "k"
      = .error (.leafIndexGeTreeSize 0 0) := rfl

/-! ## Claim C2: the image-level verification aggregate -/

/-- If an entry verifies (returns `.ok true`) against some key, then its
check against any other key also returns some boolean and never raises: the
exception-prone steps — `root_from_icp` and the descriptor re-encode — do
not depend on the key, and a falsy key short-circuits to `False`. -/
theorem verify_ok_of_ok_true (sha : Bytes → Bytes)
    (chk : Bytes → Bytes → String → Bool) (fwH : Bytes → Option Bytes)
    (e : AftlIcpEntry) (vbmeta : Bytes) (k k' : String)
    (h : e.verify_vbmeta_image sha chk fwH vbmeta k = .ok true) :
    ∃ b, e.verify_vbmeta_image sha chk fwH vbmeta k' = .ok b := by
  by_cases hv : vbmeta = []
  · simp [AftlIcpEntry.verify_vbmeta_image, hv] at h
  · simp only [AftlIcpEntry.verify_vbmeta_image, if_neg hv] at h ⊢
    by_cases hk' : k' = ""
    · exact ⟨false, by simp [AftlIcpEntry.verify_icp, hk']⟩
    · cases hroot : root_from_icp sha e.leaf_index
          (e.log_root_descriptor.tree_size : Int) (some e.proofs)
          (some (rfc6962_hash_leaf sha e.fw_info_leaf.encode)) with
      | error err =>
        by_cases hk : k = ""
        · simp [AftlIcpEntry.verify_icp, hk] at h
        · simp [AftlIcpEntry.verify_icp, hk, hroot] at h
      | ok calc_root =>
        by_cases hc : calc_root = e.log_root_descriptor.root_hash
        · cases henc : e.log_root_descriptor.encodeE with
          | error err2 =>
            by_cases hk : k = ""
            · simp [AftlIcpEntry.verify_icp, hk] at h
            · simp [AftlIcpEntry.verify_icp, hk, hroot, hc, henc] at h
          | ok lr =>
            exact ⟨chk lr e.log_root_signature k' &&
                decide (e.fw_info_leaf.vbmeta_hash fwH = some (sha vbmeta)),
              by simp [AftlIcpEntry.verify_icp, hk', hroot, hc, henc]⟩
        · exact ⟨false, by simp [AftlIcpEntry.verify_icp, hk', hroot, hc]⟩

/-- The key loop returns `.ok true` exactly when the entry verifies against
some key of the list. -/
theorem entryAnyKey_ok_true_iff (sha : Bytes → Bytes)
    (chk : Bytes → Bytes → String → Bool) (fwH : Bytes → Option Bytes)
    (e : AftlIcpEntry) (vbmeta : Bytes) (keys : List String) :
    entryAnyKey sha chk fwH e vbmeta keys = .ok true ↔
      ∃ k ∈ keys, e.verify_vbmeta_image sha chk fwH vbmeta k = .ok true := by
  induction keys with
  | nil => simp [entryAnyKey]
  | cons k ks ih =>
    simp only [entryAnyKey]
    cases hk : e.verify_vbmeta_image sha chk fwH vbmeta k with
    | error err =>
      constructor
      · intro h; exact absurd h (by simp)
      · rintro ⟨k', hk', hv⟩
        rcases List.mem_cons.mp hk' with rfl | hmem
        · rw [hk] at hv; exact absurd hv (by simp)
        · obtain ⟨b, hb⟩ :=
            verify_ok_of_ok_true sha chk fwH e vbmeta k' k hv
          rw [hk] at hb; exact absurd hb (by simp)
    | ok b =>
      cases b with
      | true =>
        constructor
        · intro _; exact ⟨k, List.mem_cons_self k ks, hk⟩
        · intro _; rfl
      | false =>
        rw [ih]
        constructor
        · rintro ⟨k', h1, h2⟩; exact ⟨k', List.mem_cons_of_mem _ h1, h2⟩
        · rintro ⟨k', h1, h2⟩
          rcases List.mem_cons.mp h1 with rfl | hmem
          · rw [hk] at h2; exact absurd h2 (by simp)
          · exact ⟨k', hmem, h2⟩

/-- The verified-entry count never exceeds the number of entries. -/
theorem countVerified_le (sha : Bytes → Bytes)
    (chk : Bytes → Bytes → String → Bool) (fwH : Bytes → Option Bytes)
    (vbmeta : Bytes) (keys : List String) (es : List AftlIcpEntry) (n : Nat)
    (h : countVerified sha chk fwH vbmeta keys es = .ok n) : n ≤ es.length := by
  induction es generalizing n with
  | nil =>
    simp only [countVerified, Except.ok.injEq] at h
    omega
  | cons e es ih =>
    simp only [countVerified] at h
    cases ha : entryAnyKey sha chk fwH e vbmeta keys with
    | error err => rw [ha] at h; exact absurd h (by simp)
    | ok b =>
      rw [ha] at h
      cases hc : countVerified sha chk fwH vbmeta keys es with
      | error err => rw [hc] at h; exact absurd h (by simp)
      | ok m =>
        rw [hc] at h
        simp only [Except.ok.injEq] at h
        have hm := ih m hc
        cases b <;> simp at h <;> simp only [List.length_cons] <;> omega

/-- The verified-entry count equals the entry count exactly when every
entry's key loop returns `.ok true`. -/
theorem countVerified_eq_length_iff (sha : Bytes → Bytes)
    (chk : Bytes → Bytes → String → Bool) (fwH : Bytes → Option Bytes)
    (vbmeta : Bytes) (keys : List String) (es : List AftlIcpEntry) :
    countVerified sha chk fwH vbmeta keys es = .ok es.length ↔
      ∀ e ∈ es, entryAnyKey sha chk fwH e vbmeta keys = .ok true := by
  induction es with
  | nil => simp [countVerified]
  | cons e es ih =>
    simp only [countVerified, List.length_cons]
    constructor
    · intro h
      cases ha : entryAnyKey sha chk fwH e vbmeta keys with
      | error err => rw [ha] at h; exact absurd h (by simp)
      | ok b =>
        rw [ha] at h
        cases hc : countVerified sha chk fwH vbmeta keys es with
        | error err => rw [hc] at h; exact absurd h (by simp)
        | ok m =>
          rw [hc] at h
          simp only [Except.ok.injEq] at h
          have hm := countVerified_le sha chk fwH vbmeta keys es m hc
          cases b with
          | false =>
            exfalso
            simp at h
            omega
          | true =>
            simp at h
            subst h
            intro e' he'
            rcases List.mem_cons.mp he' with rfl | hmem
            · exact ha
            · exact ih.mp hc e' hmem
    · intro hall
      have ha : entryAnyKey sha chk fwH e vbmeta keys = .ok true :=
        hall e (List.mem_cons_self e es)
      have hc : countVerified sha chk fwH vbmeta keys es = .ok es.length :=
        ih.mpr (fun e' he' => hall e' (List.mem_cons_of_mem _ he'))
      rw [ha, hc]
      rfl

/-- Claim C2: `AftlImage.verify_vbmeta_image` returns `True` exactly when
the key list is non-empty, the entry list is non-empty, and every entry
verifies against at least one of the provided keys; and an empty key list
or an empty entry list makes it return `False`. -/
theorem verify_vbmeta_image_true_iff (sha : Bytes → Bytes)
    (chk : Bytes → Bytes → String → Bool) (fwH : Bytes → Option Bytes)
    (img : AftlImage) (vbmeta : Bytes) (keys : List String) :
    (AftlImage.verify_vbmeta_image sha chk fwH img vbmeta keys = .ok true ↔
      keys ≠ [] ∧ img.icp_entries ≠ [] ∧
        ∀ e ∈ img.icp_entries, ∃ k ∈ keys,
          e.verify_vbmeta_image sha chk fwH vbmeta k = .ok true) ∧
    (keys = [] ∨ img.icp_entries = [] →
      AftlImage.verify_vbmeta_image sha chk fwH img vbmeta keys
        = .ok false) := by
  constructor
  · by_cases hg : keys = [] ∨ img.icp_entries = []
    · rw [AftlImage.verify_vbmeta_image, if_pos hg]
      constructor
      · intro h; exact absurd h (by simp)
      · rintro ⟨h1, h2, _⟩
        rcases hg with hg | hg
        · exact absurd hg h1
        · exact absurd hg h2
    · rw [AftlImage.verify_vbmeta_image, if_neg hg]
      push_neg at hg
      cases hcnt : countVerified sha chk fwH vbmeta keys img.icp_entries with
      | error err =>
        constructor
        · intro h; exact absurd h (by simp)
        · rintro ⟨_, _, hall⟩
          have hok : countVerified sha chk fwH vbmeta keys img.icp_entries
              = .ok img.icp_entries.length :=
            (countVerified_eq_length_iff sha chk fwH vbmeta keys
                img.icp_entries).mpr
              (fun e he =>
                (entryAnyKey_ok_true_iff sha chk fwH e vbmeta keys).mpr
                  (hall e he))
          rw [hcnt] at hok; exact absurd hok (by simp)
      | ok n =>
        constructor
        · intro h
          have hn : n = img.icp_entries.length := by simpa using h
          subst hn
          exact ⟨hg.1, hg.2, fun e he =>
            (entryAnyKey_ok_true_iff sha chk fwH e vbmeta keys).mp
              ((countVerified_eq_length_iff sha chk fwH vbmeta keys
                  img.icp_entries).mp hcnt e he)⟩
        · rintro ⟨_, _, hall⟩
          have hok : countVerified sha chk fwH vbmeta keys img.icp_entries
              = .ok img.icp_entries.length :=
            (countVerified_eq_length_iff sha chk fwH vbmeta keys
                img.icp_entries).mpr
              (fun e he =>
                (entryAnyKey_ok_true_iff sha chk fwH e vbmeta keys).mpr
                  (hall e he))
          rw [hcnt] at hok
          have hn : n = img.icp_entries.length := by simpa using hok
          simp [hn]
  · intro hg
    rw [AftlImage.verify_vbmeta_image, if_pos hg]

/-- Witness for claim C2: the empty key list discharges the hypothesis of
the second conjunct at a concrete image and vbmeta. -/
theorem verify_vbmeta_image_true_iff_witness :
    (([] : List String) = [] ∨ (emptyAftlImage 1 2).icp_entries = []) ∧
    AftlImage.verify_vbmeta_image (fun _ => []) (fun _ _ _ => true)
      (fun _ => some []) (emptyAftlImage 1 2) [1] [] = .ok false :=
  ⟨Or.inl rfl,
   (verify_vbmeta_image_true_iff (fun _ => []) (fun _ _ _ => true)
      (fun _ => some []) (emptyAftlImage 1 2) [1] []).2 (Or.inl rfl)⟩

/-! ## The `make_icp_from_vbmeta` orchestrator -/

/-- A transparency-log configuration (`target`, `pub_key`; the `api_key`
only feeds the transport metadata and is absorbed into `request`). -/
structure TransparencyLogConfig where
  target : String
  pub_key : String
  deriving Repr, DecidableEq

/-- The observable outcome of one `make_icp_from_vbmeta` call: its return
value (or the exception it raises), the bytes written to the output sink,
how many `request_inclusion_proof` calls were issued, and whether the
chained-partition ("Image has a footer ...") message was emitted. -/
structure MakeIcpResult where
  result : Except AftlError Bool
  written : Bytes
  requests : Nat
  emittedChainedPartitionMsg : Bool
  deriving Repr

/-- The per-log loop of `make_icp_from_vbmeta`: each configured log gets one
`request_inclusion_proof` call (`request`); an `AftlError` from the request
or from the local `verify_vbmeta_image` check is caught and the entry
skipped, while a returned verification boolean is only logged — the entry is
appended either way. -/
def fetchInclusionProofs (sha : Bytes → Bytes)
    (chk : Bytes → Bytes → String → Bool) (fwH : Bytes → Option Bytes)
    (request : TransparencyLogConfig → Except AftlError AftlIcpEntry)
    (vbmeta : Bytes) : AftlImage → List TransparencyLogConfig → AftlImage
  | img, [] => img
  | img, c :: cs =>
    fetchInclusionProofs sha chk fwH request vbmeta
      (match request c with
       | .error _ => img
       | .ok e =>
         match AftlIcpEntry.verify_vbmeta_image sha chk fwH e vbmeta
             c.pub_key with
         | .error _ => img
         | .ok _ => img.add_icp_entry e)
      cs

/-- `Aftl.make_icp_from_vbmeta`, after the AVB collaborator produced
`(vbmeta, footer)`.  In source order: the fetch loop, the entry-count
check, the image `is_valid` check, the image-level verification (whose
exceptions propagate), the footer check — only then are `vbmeta` and the
encoded image written.  When `padding_size > 0`, the padding write passes a
`str` (`'\0' * padding_needed`) to the binary output and raises
`TypeError`, after the vbmeta and image bytes have already been written. -/
def make_icp_from_vbmeta (sha : Bytes → Bytes)
    (chk : Bytes → Bytes → String → Bool) (fwH : Bytes → Option Bytes)
    (avbM avbm : Nat)
    (request : TransparencyLogConfig → Except AftlError AftlIcpEntry)
    (vbmeta : Bytes) (footer : Bool) (configs : List TransparencyLogConfig)
    (padding_size : Nat) : MakeIcpResult :=
  let img := fetchInclusionProofs sha chk fwH request vbmeta
    (emptyAftlImage avbM avbm) configs
  let n := configs.length
  if img.image_header.icp_count ≠ n then ⟨.ok false, [], n, false⟩
  else if ! img.is_valid avbM avbm then ⟨.ok false, [], n, false⟩
  else
    match AftlImage.verify_vbmeta_image sha chk fwH img vbmeta
        (configs.map TransparencyLogConfig.pub_key) with
    | .error err => ⟨.error err, [], n, false⟩
    | .ok false => ⟨.ok false, [], n, false⟩
    | .ok true =>
      if footer then ⟨.ok false, [], n, true⟩
      else
        let enc := img.rawEncode
        if padding_size > 0 then ⟨.error .typeError, vbmeta ++ enc, n, false⟩
        else ⟨.ok true, vbmeta ++ enc, n, false⟩

/-! ## Claim C7: the chained-partition (footer) rejection -/

/-- Claim C7 (amended): with a footer present `make_icp_from_vbmeta` never
returns `True` and writes nothing to the output sink, but the footer check
runs only after the proof-fetching loop, so one inclusion-proof request is
still issued per configured log, and the `ChainedPartitionUnsupported`
message is only reached when all proofs were fetched and verified. -/
theorem make_icp_footer_rejects (sha : Bytes → Bytes)
    (chk : Bytes → Bytes → String → Bool) (fwH : Bytes → Option Bytes)
    (avbM avbm : Nat)
    (request : TransparencyLogConfig → Except AftlError AftlIcpEntry)
    (vbmeta : Bytes) (configs : List TransparencyLogConfig)
    (padding_size : Nat) (footer : Bool) (hf : footer = true) :
    (make_icp_from_vbmeta sha chk fwH avbM avbm request vbmeta footer configs
        padding_size).written = [] ∧
    (make_icp_from_vbmeta sha chk fwH avbM avbm request vbmeta footer configs
        padding_size).result ≠ .ok true ∧
    (make_icp_from_vbmeta sha chk fwH avbM avbm request vbmeta footer configs
        padding_size).requests = configs.length := by
  subst hf
  simp only [make_icp_from_vbmeta]
  split
  · exact ⟨rfl, by simp, rfl⟩
  · split
    · exact ⟨rfl, by simp, rfl⟩
    · split
      · exact ⟨rfl, by simp, rfl⟩
      · exact ⟨rfl, by simp, rfl⟩
      · exact ⟨rfl, by simp, rfl⟩

/-- Concrete oracles and data for the witnesses: a constant hash, an
always-accepting signature check, a leaf lookup returning the constant
hash. -/
def wSha : Bytes → Bytes := fun _ => []

def wChk : Bytes → Bytes → String → Bool := fun _ _ _ => true

def wFwH : Bytes → Option Bytes := fun _ => some []

def wConfig : TransparencyLogConfig := ⟨"t", "k"⟩

/-- Witness for the amended claim C7, at one configured log whose request
fails. -/
theorem make_icp_footer_rejects_witness :
    (true = true) ∧
    ((make_icp_from_vbmeta wSha wChk wFwH 1 2 (fun _ => .error .noProof) [1]
        true [wConfig] 0).written = [] ∧
     (make_icp_from_vbmeta wSha wChk wFwH 1 2 (fun _ => .error .noProof) [1]
        true [wConfig] 0).result ≠ .ok true ∧
     (make_icp_from_vbmeta wSha wChk wFwH 1 2 (fun _ => .error .noProof) [1]
        true [wConfig] 0).requests = [wConfig].length) :=
  ⟨rfl, make_icp_footer_rejects wSha wChk wFwH 1 2 (fun _ => .error .noProof)
    [1] [wConfig] 0 true rfl⟩

/-- Counterexample to claim C7 as stated: with a footer present and one
configured log whose request fails, a request is still issued (`requests =
1`, not 0) and the run ends with the proof-count failure message, not the
`ChainedPartitionUnsupported` one. -/
theorem make_icp_footer_after_requests_cex :
    (make_icp_from_vbmeta wSha wChk wFwH 1 2 (fun _ => .error .noProof) [1]
        true [wConfig] 0).requests = 1 ∧
    (make_icp_from_vbmeta wSha wChk wFwH 1 2 (fun _ => .error .noProof) [1]
        true [wConfig] 0).emittedChainedPartitionMsg = false ∧
    (make_icp_from_vbmeta wSha wChk wFwH 1 2 (fun _ => .error .noProof) [1]
        true [wConfig] 0).result = .ok false := ⟨rfl, rfl, rfl⟩

/-! ## Claim C8: the padding write -/

/-- An entry that verifies under the witness oracles: leaf index 0 in a
tree of size 1, empty proof, a one-byte leaf blob. -/
def wEntry : AftlIcpEntry := ⟨0, [], ⟨1, 1, 0, [], 0, 0, 0, []⟩, ⟨[1]⟩, [], []⟩

/-- Claim C8 (code bug): a run in which everything verifies — one log, an
entry that passes local and image-level verification, no footer — with
`padding_size = 7` raises `TypeError` at the padding write instead of
succeeding: the bytes written are exactly `vbmeta ++ image.encode()` (76
bytes, not a multiple of 7) with no NUL padding appended. -/
theorem make_icp_padding_type_bug :
    (make_icp_from_vbmeta wSha wChk wFwH 1 2 (fun _ => .ok wEntry) [1] false
        [wConfig] 7).result = .error .typeError ∧
    (make_icp_from_vbmeta wSha wChk wFwH 1 2 (fun _ => .ok wEntry) [1] false
        [wConfig] 7).written
      = [1] ++ ((emptyAftlImage 1 2).add_icp_entry wEntry).rawEncode ∧
    (make_icp_from_vbmeta wSha wChk wFwH 1 2 (fun _ => .ok wEntry) [1] false
        [wConfig] 7).written.length = 76 ∧
    ¬ (7 ∣ (make_icp_from_vbmeta wSha wChk wFwH 1 2 (fun _ => .ok wEntry) [1]
        false [wConfig] 7).written.length) :=
  ⟨rfl, rfl, rfl, by decide⟩

end Aftl
